import Mathlib

/-!
A shallow embedding of `src/script.js` (a single-page birthday greeting app):
the name-editing / persistence workflow, the animation trigger and their
timer choreography, modelled as state-transition functions on an explicit
application state.  `setTimeout` callbacks are modelled as a queue of pending
timers carrying an absolute fire time; advancing the clock fires every due
timer in order.
-/

namespace Dew

/-- Whitespace as stripped by JavaScript `String.prototype.trim` (restricted
to the ASCII whitespace characters, which covers every string this
development evaluates). -/
def jsWhitespace (c : Char) : Bool :=
  c == ' ' || c == '\t' || c == '\n' || c == '\r' || c == '\x0b' || c == '\x0c'

/-- JavaScript `String.prototype.trim`: strip leading and trailing
whitespace. Defined structurally on the character list so that it evaluates
inside the kernel. -/
def jsTrim (s : String) : String :=
  String.mk (((s.data.dropWhile jsWhitespace).reverse.dropWhile jsWhitespace).reverse)

/-- JavaScript `String.prototype.length` (UTF-16 code units; the strings here
are ASCII, so this is the character count). -/
def jsLength (s : String) : Nat :=
  s.data.length

/-- A deferred `setTimeout` callback, identified by what its body does.
Only the two callbacks that touch modelled state appear: the 150 ms label
update inside `updateDisplayedName` (script.js:183-191) and the 4000 ms
animation-cooldown reset inside `replayAnimation` (script.js:211-218). -/
inductive TimerAction
  | labelUpdate (name : String)
  | animationEnd
deriving DecidableEq

/-- The application state: the `state` object of script.js:21-24 together
with the parts of the document and environment the script reads and writes.
`storage` is the value under the single localStorage key
`"birthdayRecipientName"`; `announcements` and `notifications` are logs of
the screen-reader live-region messages and of the banner texts (their later
removal timers touch no other modelled state and are elided); `cakePresent`
records whether `elements.cake` is non-null. -/
structure AppState where
  currentName : String
  isAnimating : Bool
  storage : Option String
  dialogOpen : Bool
  inputValue : String
  label : String
  labelLoading : Bool
  saveBtnDisabled : Bool
  playBtnDisabled : Bool
  inlineError : Option String
  scrollLocked : Bool
  notifications : List String
  announcements : List String
  cakePresent : Bool
  now : Nat
  timers : List (Nat × TimerAction)
deriving DecidableEq

/-- `announceToScreenReader` (script.js:405-418): appends a live-region
message (its 1000 ms removal touches no other modelled state). -/
def announceToScreenReader (message : String) (s : AppState) : AppState :=
  { s with announcements := s.announcements ++ [message] }

/-- `updateDisplayedName` (script.js:177-192): adds the loading class and
schedules the actual label write 150 ms later. -/
def updateDisplayedName (name : String) (s : AppState) : AppState :=
  { s with labelLoading := true,
           timers := s.timers ++ [(s.now + 150, TimerAction.labelUpdate name)] }

/-- `showInputError` (script.js:250-277): red border styling elided; records
the inline error message and announces it. -/
def showInputError (message : String) (s : AppState) : AppState :=
  { s with inlineError := some message,
           announcements := s.announcements ++ ["Error: " ++ message] }

/-- `clearInputError` (script.js:282-292). -/
def clearInputError (s : AppState) : AppState :=
  { s with inlineError := none }

/-- `showSuccessMessage` (script.js:297-332): appends a banner (the 3000 ms
and 300 ms dismissal timers touch no other modelled state and are elided). -/
def showSuccessMessage (message : String) (s : AppState) : AppState :=
  { s with notifications := s.notifications ++ [message] }

/-- `openModal` (script.js:106-119): populates the draft field with
`currentName`, shows the dialog, locks background scroll, announces.
(Focus movement is not modelled.) -/
def openModal (s : AppState) : AppState :=
  { s with inputValue := s.currentName,
           dialogOpen := true,
           scrollLocked := true,
           announcements := s.announcements ++ ["Name change dialog opened"] }

/-- `closeModal` (script.js:124-137): hides the dialog, restores scroll,
announces. (Focus return is not modelled.) -/
def closeModal (s : AppState) : AppState :=
  { s with dialogOpen := false,
           scrollLocked := false,
           announcements := s.announcements ++ ["Name change dialog closed"] }

/-- `saveName` (script.js:142-172): validates the trimmed draft; on failure
shows the inline error and returns; on success updates `currentName`,
schedules the label update, writes the trimmed name to storage, closes the
dialog, shows the success banner and announces the change. -/
def saveName (s : AppState) : AppState :=
  if jsTrim s.inputValue = "" then
    showInputError "Please enter a valid name" s
  else if 20 < jsLength (jsTrim s.inputValue) then
    showInputError "Name must be 20 characters or less" s
  else
    announceToScreenReader
      ("Birthday person's name changed to " ++ jsTrim s.inputValue)
      (showSuccessMessage ("Name updated to \"" ++ jsTrim s.inputValue ++ "\"!")
        (closeModal
          { updateDisplayedName (jsTrim s.inputValue)
              { s with currentName := jsTrim s.inputValue } with
            storage := some (jsTrim s.inputValue) }))

/-- The `window` error listener (script.js:469-494): logs the fault and shows
one generic banner for 5000 ms; it touches no other modelled state. -/
def windowErrorHandler (s : AppState) : AppState :=
  { s with notifications :=
      s.notifications ++ ["Something went wrong. Please refresh the page."] }

/-- `saveName` when `localStorage.setItem` (script.js:162) throws: per
JavaScript handler semantics the statements already executed stand (the
`state.currentName` write at line 158 and `updateDisplayedName` at line 159),
the storage write does not happen, and the rest of the handler — `closeModal`
(line 165), the success banner (line 168) and the change announcement (line
171) — is skipped; the uncaught exception then reaches the global `window`
error listener. -/
def saveNameStoreThrows (s : AppState) : AppState :=
  if jsTrim s.inputValue = "" then
    showInputError "Please enter a valid name" s
  else if 20 < jsLength (jsTrim s.inputValue) then
    showInputError "Name must be 20 characters or less" s
  else
    windowErrorHandler
      (updateDisplayedName (jsTrim s.inputValue)
        { s with currentName := jsTrim s.inputValue })

/-- `validateInput` (script.js:227-245), the live validation run on every
input event: enables the save button and clears the inline error when the
trimmed value is non-empty and the RAW value length is at most 20; otherwise
disables the save button, additionally showing the too-long error when the
raw length exceeds 20. -/
def validateInput (s : AppState) : AppState :=
  if jsTrim s.inputValue ≠ "" ∧ jsLength s.inputValue ≤ 20 then
    clearInputError { s with saveBtnDisabled := false }
  else
    if 20 < jsLength s.inputValue then
      showInputError "Name must be 20 characters or less"
        { s with saveBtnDisabled := true }
    else
      { s with saveBtnDisabled := true }

/-- The three classifications of a draft. -/
inductive Validation
  | Valid
  | TooLong
  | Empty
deriving DecidableEq

/-- The classification `validateInput` (script.js:227-245) gives a draft
value: `Valid` is the branch that enables save and clears the error,
`TooLong` the branch that shows the length error, `Empty` the branch that
merely disables the save button. -/
def classifyInput (value : String) : Validation :=
  if jsTrim value ≠ "" ∧ jsLength value ≤ 20 then Validation.Valid
  else if 20 < jsLength value then Validation.TooLong
  else Validation.Empty

/-- `validateDraft` exactly as the spec words it (spec §4.1): `Valid` iff the
trimmed text is non-empty and at most 20 characters, `TooLong` if the trimmed
text exceeds 20, `Empty` if blank after trim.  Stated for comparison with
`classifyInput`, which is translated from the code. -/
def validateDraftSpec (text : String) : Validation :=
  if jsTrim text = "" then Validation.Empty
  else if 20 < jsLength (jsTrim text) then Validation.TooLong
  else Validation.Valid

/-- `replayAnimation` (script.js:197-222): no-op while animating or when the
cake element is absent; otherwise sets the flag, disables the trigger button,
restarts the decorative SVG primitives (no modelled state), schedules the
4000 ms cooldown reset and announces the start. -/
def replayAnimation (s : AppState) : AppState :=
  if s.isAnimating || !s.cakePresent then s
  else
    announceToScreenReader "Cake animation started"
      { s with isAnimating := true,
               playBtnDisabled := true,
               timers := s.timers ++ [(s.now + 4000, TimerAction.animationEnd)] }

/-- The body of a fired timer: the 150 ms callback of `updateDisplayedName`
(script.js:183-191) writes the label and removes the loading class; the
4000 ms callback of `replayAnimation` (script.js:211-218) resets the flag,
re-enables the button and announces completion. -/
def applyTimer (s : AppState) : TimerAction → AppState
  | TimerAction.labelUpdate name =>
      { s with label := name, labelLoading := false }
  | TimerAction.animationEnd =>
      announceToScreenReader "Cake animation completed"
        { s with isAnimating := false, playBtnDisabled := false }

/-- Fire a list of timers in order. -/
def fireAll (st : AppState) (l : List (Nat × TimerAction)) : AppState :=
  l.foldl (fun s2 p => applyTimer s2 p.2) st

/-- Advance the clock to time `t` (never backwards) and fire every due
pending timer, in scheduling order, removing them from the queue. -/
def runTimersTo (t : Nat) (s : AppState) : AppState :=
  fireAll
    { s with now := max s.now t,
             timers := s.timers.filter fun p => !decide (p.1 ≤ max s.now t) }
    (s.timers.filter fun p => decide (p.1 ≤ max s.now t))

/-- `loadSavedName` (script.js:95-101): read the single key once; when it is
present with a non-blank trim, install the trimmed value as `currentName` and
schedule the label update. -/
def loadSavedName (s : AppState) : AppState :=
  match s.storage with
  | none => s
  | some savedName =>
      if savedName ≠ "" ∧ jsTrim savedName ≠ "" then
        updateDisplayedName (jsTrim savedName)
          { s with currentName := jsTrim savedName }
      else s

/-- Modelled from the spec: the page markup is not under `src/` (only
`script.js` is); per spec §8 the recipient label initially shows the
hardcoded default name "Lovie". -/
def initialLabel : String := "Lovie"

/-- The state right after the script's top-level declarations run
(script.js:7-24): `state = { currentName: 'Lovie', isAnimating: false }`,
dialog closed, no timers pending; `storage0` is the pre-existing localStorage
content and `cake` records whether the cake element exists in the markup. -/
def initState (storage0 : Option String) (cake : Bool) : AppState :=
  { currentName := "Lovie"
    isAnimating := false
    storage := storage0
    dialogOpen := false
    inputValue := ""
    label := initialLabel
    labelLoading := false
    saveBtnDisabled := false
    playBtnDisabled := false
    inlineError := none
    scrollLocked := false
    notifications := []
    announcements := []
    cakePresent := cake
    now := 0
    timers := [] }

/-- `init` (script.js:29-41) as far as modelled state reaches: listener and
accessibility setup carry no state; `loadSavedName` runs. -/
def initApp (storage0 : Option String) (cake : Bool) : AppState :=
  loadSavedName (initState storage0 cake)

/-- The keypress listener on the draft field (script.js:68-72): pressing
Enter calls `saveName()` directly — the save button's `disabled` state is not
consulted. -/
def pressEnter (s : AppState) : AppState :=
  saveName s

/-- The user typing `v` into the draft field: the field value becomes `v` and
the input listener (script.js:67) runs `validateInput`. -/
def typeInput (v : String) (s : AppState) : AppState :=
  validateInput { s with inputValue := v }

/-- Clicking the save button (script.js:51): a disabled button fires no click
event, otherwise `saveName` runs. -/
def clickSave (s : AppState) : AppState :=
  if s.saveBtnDisabled then s else saveName s

/-- The user-visible operations, plus clock advancement. -/
inductive Op
  | openM
  | closeM
  | typeIn (v : String)
  | save
  | enter
  | replay
  | runTo (t : Nat)

/-- Interpret one operation. -/
def applyOp (s : AppState) : Op → AppState
  | Op.openM => openModal s
  | Op.closeM => closeModal s
  | Op.typeIn v => typeInput v s
  | Op.save => clickSave s
  | Op.enter => pressEnter s
  | Op.replay => replayAnimation s
  | Op.runTo t => runTimersTo t s

/-- Interpret a sequence of operations. -/
def run (ops : List Op) (s : AppState) : AppState :=
  ops.foldl applyOp s

/-! ### Helper lemmas about timers -/

theorem fireAll_nil (st : AppState) : fireAll st [] = st := rfl

theorem fireAll_cons (st : AppState) (x : Nat × TimerAction)
    (l : List (Nat × TimerAction)) :
    fireAll st (x :: l) = fireAll (applyTimer st x.2) l := rfl

theorem fireAll_append_single (st : AppState) (l : List (Nat × TimerAction))
    (x : Nat × TimerAction) :
    fireAll st (l ++ [x]) = applyTimer (fireAll st l) x.2 := by
  simp [fireAll, List.foldl_append]

theorem runTimersTo_label (st : AppState) (l : List (Nat × TimerAction)) (n : String)
    (h : st.timers = l ++ [(st.now + 150, TimerAction.labelUpdate n)]) :
    (runTimersTo (st.now + 150) st).label = n := by
  have hmax : max st.now (st.now + 150) = st.now + 150 :=
    Nat.max_eq_right (Nat.le_add_right _ _)
  rw [runTimersTo, hmax, h, List.filter_append, List.filter_append]
  simp [fireAll_append_single, applyTimer]

theorem loadSavedName_some (s : AppState) (v : String) (h : s.storage = some v) :
    loadSavedName s =
      if v ≠ "" ∧ jsTrim v ≠ "" then
        updateDisplayedName (jsTrim v) { s with currentName := jsTrim v }
      else s := by
  unfold loadSavedName
  rw [h]

/-! ### C1 -/

/-- The input of the C1 counterexample: the letter A followed by twenty
spaces — trimmed it is the single non-blank character A, but its raw length
is 21. -/
def overlongPadded : String := "A" ++ String.mk (List.replicate 20 ' ')

/-- C1 counterexample: for the draft "A" followed by twenty spaces, the
trimmed draft is non-empty and of length 1 ≤ 20, yet `validateInput` does
not classify it `Valid`: it takes the too-long branch (the raw length is 21)
and leaves the save button disabled.  So `validateInput` does not classify a
draft `Valid` iff its trimmed length is between 1 and 20. -/
theorem validate_classification_cex :
    jsTrim overlongPadded ≠ "" ∧
    jsLength (jsTrim overlongPadded) ≤ 20 ∧
    classifyInput overlongPadded ≠ Validation.Valid ∧
    classifyInput overlongPadded = Validation.TooLong ∧
    validateDraftSpec overlongPadded = Validation.Valid ∧
    classifyInput overlongPadded ≠ validateDraftSpec overlongPadded ∧
    (typeInput overlongPadded (openModal (initApp none true))).saveBtnDisabled = true := by
  decide

/-- C1 (amended): `validateInput` classifies a draft `Valid` (save enabled,
inline error cleared) iff the trimmed draft is non-empty AND the raw draft
length is at most 20; it classifies it `TooLong` (inline length error) iff
the raw length exceeds 20; it classifies it `Empty` (save silently disabled)
iff the draft is blank after trimming and the raw length is at most 20. -/
theorem validate_classification (val : String) :
    (classifyInput val = Validation.Valid ↔ jsTrim val ≠ "" ∧ jsLength val ≤ 20) ∧
    (classifyInput val = Validation.TooLong ↔ 20 < jsLength val) ∧
    (classifyInput val = Validation.Empty ↔ jsTrim val = "" ∧ jsLength val ≤ 20) ∧
    (∀ s : AppState, s.inputValue = val →
      ((validateInput s).saveBtnDisabled = false ↔ classifyInput val = Validation.Valid) ∧
      (classifyInput val = Validation.Valid → (validateInput s).inlineError = none) ∧
      (classifyInput val = Validation.TooLong →
        (validateInput s).inlineError = some "Name must be 20 characters or less")) := by
  by_cases h1 : jsTrim val ≠ "" ∧ jsLength val ≤ 20
  · rw [classifyInput, if_pos h1]
    refine ⟨by simp [h1], ?_, ?_, ?_⟩
    · exact iff_of_false (by simp) (Nat.not_lt.mpr h1.2)
    · exact iff_of_false (by simp) (by simp [h1.1])
    · intro s hs
      rw [validateInput, hs, if_pos h1]
      exact ⟨by simp [clearInputError], fun _ => rfl, by simp⟩
  · by_cases h2 : 20 < jsLength val
    · rw [classifyInput, if_neg h1, if_pos h2]
      refine ⟨iff_of_false (by simp) h1, by simp [h2], ?_, ?_⟩
      · exact iff_of_false (by simp) (fun hc => Nat.not_lt.mpr hc.2 h2)
      · intro s hs
        rw [validateInput, hs, if_neg h1, if_pos h2]
        exact ⟨by simp [showInputError], by simp, fun _ => rfl⟩
    · rw [classifyInput, if_neg h1, if_neg h2]
      have hle : jsLength val ≤ 20 := Nat.not_lt.mp h2
      have hblank : jsTrim val = "" := by
        by_contra hne
        exact h1 ⟨hne, hle⟩
      refine ⟨iff_of_false (by simp) h1, by simp [h2], by simp [hblank, hle], ?_⟩
      intro s hs
      rw [validateInput, hs, if_neg h1, if_neg h2]
      exact ⟨by simp, by simp, by simp⟩

/-- C1 witness: the amended classification theorem applied to the concrete
draft "Bob". -/
theorem validate_classification_witness :
    (validateInput { initState none true with inputValue := "Bob" }).saveBtnDisabled = false ↔
      classifyInput "Bob" = Validation.Valid := by
  exact ((validate_classification "Bob").2.2.2
    { initState none true with inputValue := "Bob" } rfl).1

/-! ### C2 -/

/-- C2: saving a draft whose trim is non-empty and at most 20 characters sets
`currentName` to the trimmed draft, writes exactly the trimmed draft to the
persistence key, closes the dialog, and after the fixed 150 ms delay the
displayed label equals the trimmed draft. -/
theorem save_valid_commits (s : AppState) (h1 : jsTrim s.inputValue ≠ "")
    (h2 : jsLength (jsTrim s.inputValue) ≤ 20) :
    (saveName s).currentName = jsTrim s.inputValue ∧
    (saveName s).storage = some (jsTrim s.inputValue) ∧
    (saveName s).dialogOpen = false ∧
    (runTimersTo (s.now + 150) (saveName s)).label = jsTrim s.inputValue := by
  rw [saveName, if_neg h1, if_neg (Nat.not_lt.mpr h2)]
  refine ⟨rfl, rfl, rfl, ?_⟩
  exact runTimersTo_label _ s.timers _ (by
    simp [announceToScreenReader, showSuccessMessage, closeModal, updateDisplayedName])

/-- C2 witness: saving the draft with value "  Alex  " from a freshly opened
dialog. -/
theorem save_valid_commits_witness :
    (saveName (typeInput "  Alex  " (openModal (initApp none true)))).storage =
      some (jsTrim (typeInput "  Alex  " (openModal (initApp none true))).inputValue) ∧
    (runTimersTo ((typeInput "  Alex  " (openModal (initApp none true))).now + 150)
        (saveName (typeInput "  Alex  " (openModal (initApp none true))))).label =
      jsTrim (typeInput "  Alex  " (openModal (initApp none true))).inputValue := by
  have h := save_valid_commits (typeInput "  Alex  " (openModal (initApp none true)))
    (by decide) (by decide)
  exact ⟨h.2.1, h.2.2.2⟩

/-! ### C3 -/

/-- C3: saving a draft that is blank after trimming, or whose trimmed length
exceeds 20, shows the corresponding inline error and aborts: the dialog
visibility, `currentName`, the persisted value and the pending timers are all
unchanged (in particular an open dialog stays open and nothing is written to
storage). -/
theorem save_invalid_aborts (s : AppState) :
    (jsTrim s.inputValue = "" →
        saveName s = showInputError "Please enter a valid name" s) ∧
    (jsTrim s.inputValue ≠ "" → 20 < jsLength (jsTrim s.inputValue) →
        saveName s = showInputError "Name must be 20 characters or less" s) ∧
    ((jsTrim s.inputValue = "" ∨ 20 < jsLength (jsTrim s.inputValue)) →
        (saveName s).currentName = s.currentName ∧
        (saveName s).storage = s.storage ∧
        (saveName s).dialogOpen = s.dialogOpen ∧
        (saveName s).timers = s.timers ∧
        (saveName s).inlineError ≠ none) := by
  refine ⟨fun h1 => by rw [saveName, if_pos h1], ?_, ?_⟩
  · intro h1 h2
    rw [saveName, if_neg h1, if_pos h2]
  · intro h
    by_cases h1 : jsTrim s.inputValue = ""
    · rw [saveName, if_pos h1]
      simp [showInputError]
    · have h2 : 20 < jsLength (jsTrim s.inputValue) := h.resolve_left h1
      rw [saveName, if_neg h1, if_pos h2]
      simp [showInputError]

/-- C3 witness: saving the all-blank draft "   " from a freshly opened
dialog. -/
theorem save_invalid_aborts_witness :
    saveName (typeInput "   " (openModal (initApp none true))) =
      showInputError "Please enter a valid name"
        (typeInput "   " (openModal (initApp none true))) := by
  exact (save_invalid_aborts (typeInput "   " (openModal (initApp none true)))).1 (by decide)

/-! ### C5 -/

/-- C5 counterexample: a valid draft ("Alex") in an open dialog whose storage
write throws — `saveNameStoreThrows` leaves the dialog OPEN, so a throw from
the underlying store does prevent the dialog close (the close is coded after
the `localStorage.setItem` call and is skipped when that call throws). -/
theorem save_throwing_store_cex :
    (typeInput "Alex" (openModal (initApp none true))).dialogOpen = true ∧
    jsTrim (typeInput "Alex" (openModal (initApp none true))).inputValue = "Alex" ∧
    (saveNameStoreThrows (typeInput "Alex" (openModal (initApp none true)))).dialogOpen = true := by
  decide

/-- C5 (amended): on a valid draft, the label-update delay is scheduled
before the storage write, so it happens (and later fires) even when the store
throws, and the in-memory `currentName` update also stands; but a throwing
store aborts the rest of the handler: nothing is written, the dialog is NOT
closed, and instead the global error handler appends its generic banner. -/
theorem save_throwing_store (s : AppState) (h1 : jsTrim s.inputValue ≠ "")
    (h2 : jsLength (jsTrim s.inputValue) ≤ 20) :
    (saveNameStoreThrows s).currentName = jsTrim s.inputValue ∧
    (saveNameStoreThrows s).storage = s.storage ∧
    (saveNameStoreThrows s).dialogOpen = s.dialogOpen ∧
    (saveNameStoreThrows s).notifications =
      s.notifications ++ ["Something went wrong. Please refresh the page."] ∧
    (runTimersTo (s.now + 150) (saveNameStoreThrows s)).label = jsTrim s.inputValue := by
  rw [saveNameStoreThrows, if_neg h1, if_neg (Nat.not_lt.mpr h2)]
  refine ⟨rfl, rfl, rfl, rfl, ?_⟩
  exact runTimersTo_label _ s.timers _ (by
    simp [windowErrorHandler, updateDisplayedName])

/-- C5 witness: the amended theorem applied to the draft "Alex" in a freshly
opened dialog. -/
theorem save_throwing_store_witness :
    (saveNameStoreThrows (typeInput "Alex" (openModal (initApp none true)))).dialogOpen =
      (typeInput "Alex" (openModal (initApp none true))).dialogOpen ∧
    (saveNameStoreThrows (typeInput "Alex" (openModal (initApp none true)))).storage =
      (typeInput "Alex" (openModal (initApp none true))).storage := by
  have h := save_throwing_store (typeInput "Alex" (openModal (initApp none true)))
    (by decide) (by decide)
  exact ⟨h.2.2.1, h.2.1⟩

/-! ### C6 -/

/-- C6: calling `replayAnimation` while `isAnimating` is true, or while the
cake element is absent, returns the state completely unchanged — no field
changes, no control disabled, no timer scheduled, no announcement. -/
theorem replay_reentrant_noop (s : AppState)
    (h : s.isAnimating = true ∨ s.cakePresent = false) :
    replayAnimation s = s := by
  rcases h with h | h <;> simp [replayAnimation, h]

/-- C6 witness: replaying while an animation is already running changes
nothing. -/
theorem replay_reentrant_noop_witness :
    (replayAnimation (initApp none true)).isAnimating = true ∧
    replayAnimation (replayAnimation (initApp none true)) =
      replayAnimation (initApp none true) := by
  exact ⟨by decide,
    replay_reentrant_noop (replayAnimation (initApp none true)) (Or.inl (by decide))⟩

/-! ### C8 -/

/-- C8 counterexample: with the persisted value "  Sam  " (present and
non-blank after trimming), startup sets `currentName` to the TRIMMED stored
value "Sam", not to the stored value itself. -/
theorem startup_load_cex :
    jsTrim "  Sam  " ≠ "" ∧
    (initApp (some "  Sam  ") true).currentName ≠ "  Sam  " ∧
    (initApp (some "  Sam  ") true).currentName = "Sam" := by
  decide

/-- C8 (amended): at startup, if the stored value is absent or blank after
trimming, initialization changes nothing — `currentName` keeps the hardcoded
default "Lovie" (and the label keeps showing the markup default).  Otherwise
`currentName` becomes the TRIMMED stored value, the dialog stays closed, no
announcement is made, and after the 150 ms delay the label shows the trimmed
stored value. -/
theorem startup_initializes_name (storage0 : Option String) (cake : Bool) :
    ((storage0 = none ∨ ∃ v, storage0 = some v ∧ jsTrim v = "") →
        initApp storage0 cake = initState storage0 cake ∧
        (initApp storage0 cake).currentName = "Lovie" ∧
        (initApp storage0 cake).label = "Lovie") ∧
    (∀ v, storage0 = some v → jsTrim v ≠ "" →
        (initApp storage0 cake).currentName = jsTrim v ∧
        (initApp storage0 cake).dialogOpen = false ∧
        (initApp storage0 cake).announcements = [] ∧
        (runTimersTo 150 (initApp storage0 cake)).label = jsTrim v) := by
  constructor
  · rintro (rfl | ⟨v, rfl, hv⟩)
    · exact ⟨rfl, rfl, rfl⟩
    · have hcond : ¬ (v ≠ "" ∧ jsTrim v ≠ "") := by
        rintro ⟨-, hne⟩
        exact hne hv
      have hinit : initApp (some v) cake = initState (some v) cake := by
        unfold initApp
        rw [loadSavedName_some (initState (some v) cake) v rfl, if_neg hcond]
      refine ⟨hinit, ?_, ?_⟩ <;> rw [hinit] <;> rfl
  · rintro v rfl hne
    have hv : v ≠ "" := by
      rintro rfl
      exact hne rfl
    have hinit : initApp (some v) cake =
        updateDisplayedName (jsTrim v)
          { initState (some v) cake with currentName := jsTrim v } := by
      unfold initApp
      rw [loadSavedName_some (initState (some v) cake) v rfl, if_pos (And.intro hv hne)]
    rw [hinit]
    refine ⟨rfl, rfl, rfl, ?_⟩
    exact runTimersTo_label _ [] _ (by simp [updateDisplayedName, initState])

/-- C8 witness: the amended startup theorem applied to the stored value
"  Sam  " (and, for the default branch, to an empty store). -/
theorem startup_initializes_name_witness :
    (initApp none true).currentName = "Lovie" ∧
    (initApp (some "  Sam  ") true).currentName = jsTrim "  Sam  " ∧
    (runTimersTo 150 (initApp (some "  Sam  ") true)).label = jsTrim "  Sam  " := by
  refine ⟨((startup_initializes_name none true).1 (Or.inl rfl)).2.1, ?_, ?_⟩
  · exact ((startup_initializes_name (some "  Sam  ") true).2 "  Sam  " rfl (by decide)).1
  · exact ((startup_initializes_name (some "  Sam  ") true).2 "  Sam  " rfl (by decide)).2.2.2

/-! ### C9 -/

/-- C9: for every state, closing the dialog and then reopening it repopulates
the draft field with the current `currentName` — whatever stale draft was in
the field before is overwritten. -/
theorem reopen_repopulates (s : AppState) :
    (openModal (closeModal s)).inputValue = s.currentName ∧
    (openModal (closeModal s)).dialogOpen = true := by
  simp [openModal, closeModal]

/-! ### C10 -/

/-- The input of the C10 scenario: "Alex" followed by seventeen spaces — raw
length 21, trimmed length 4. -/
def paddedName : String := "Alex" ++ String.mk (List.replicate 17 ' ')

/-- C10: typing "Alex" plus seventeen trailing spaces (raw length 21, trimmed
length 4) makes the live validation disable the save button, yet pressing
Enter — which calls `saveName` directly, bypassing the button's disabled
state — re-validates against the trimmed length and saves successfully:
`currentName` becomes "Alex", "Alex" is persisted, and the dialog closes. -/
theorem enter_bypasses_disabled_save :
    jsLength paddedName = 21 ∧
    jsTrim paddedName = "Alex" ∧
    (typeInput paddedName (openModal (initApp none true))).saveBtnDisabled = true ∧
    (pressEnter (typeInput paddedName (openModal (initApp none true)))).currentName = "Alex" ∧
    (pressEnter (typeInput paddedName (openModal (initApp none true)))).storage = some "Alex" ∧
    (pressEnter (typeInput paddedName (openModal (initApp none true)))).dialogOpen = false := by
  decide

/-! ### C4 -/

theorem applyTimer_fields (st : AppState) (a : TimerAction) :
    (applyTimer st a).currentName = st.currentName ∧
    (applyTimer st a).storage = st.storage ∧
    (applyTimer st a).timers = st.timers ∧
    (applyTimer st a).now = st.now := by
  cases a <;> simp [applyTimer, announceToScreenReader]

theorem fireAll_fields (l : List (Nat × TimerAction)) (st : AppState) :
    (fireAll st l).currentName = st.currentName ∧
    (fireAll st l).storage = st.storage ∧
    (fireAll st l).timers = st.timers ∧
    (fireAll st l).now = st.now := by
  induction l generalizing st with
  | nil => exact ⟨rfl, rfl, rfl, rfl⟩
  | cons x xs ih =>
      rw [fireAll_cons]
      obtain ⟨i1, i2, i3, i4⟩ := ih (applyTimer st x.2)
      obtain ⟨g1, g2, g3, g4⟩ := applyTimer_fields st x.2
      exact ⟨i1.trans g1, i2.trans g2, i3.trans g3, i4.trans g4⟩

/-- The state invariant of spec §3, as it actually holds on the code:
`currentName` is non-empty and at most 20 characters, and whenever a
persisted value exists it equals `currentName`. -/
def Inv (s : AppState) : Prop :=
  s.currentName ≠ "" ∧ jsLength s.currentName ≤ 20 ∧
    (s.storage = none ∨ s.storage = some s.currentName)

/-- A persisted value this app itself could have written: absent, or a
trimmed non-empty string of at most 20 characters. -/
def WellFormedStore : Option String → Prop
  | none => True
  | some v => jsTrim v = v ∧ v ≠ "" ∧ jsLength v ≤ 20

theorem inv_showInputError (m : String) (s : AppState) (h : Inv s) :
    Inv (showInputError m s) := by
  simpa [showInputError, Inv] using h

theorem inv_saveName (s : AppState) (h : Inv s) : Inv (saveName s) := by
  by_cases c1 : jsTrim s.inputValue = ""
  · rw [saveName, if_pos c1]
    exact inv_showInputError _ s h
  · by_cases c2 : 20 < jsLength (jsTrim s.inputValue)
    · rw [saveName, if_neg c1, if_pos c2]
      exact inv_showInputError _ s h
    · rw [saveName, if_neg c1, if_neg c2]
      exact ⟨c1, Nat.not_lt.mp c2, Or.inr rfl⟩

theorem inv_validateInput (s : AppState) (h : Inv s) : Inv (validateInput s) := by
  obtain ⟨h1, h2, h3⟩ := h
  rw [validateInput]
  split
  · exact ⟨h1, h2, h3⟩
  · split
    · exact ⟨h1, h2, h3⟩
    · exact ⟨h1, h2, h3⟩

theorem inv_runTimersTo (t : Nat) (s : AppState) (h : Inv s) : Inv (runTimersTo t s) := by
  obtain ⟨h1, h2, h3⟩ := h
  rw [runTimersTo]
  refine ⟨?_, ?_, ?_⟩
  · rw [(fireAll_fields _ _).1]
    exact h1
  · rw [(fireAll_fields _ _).1]
    exact h2
  · rw [(fireAll_fields _ _).1, (fireAll_fields _ _).2.1]
    exact h3

theorem inv_applyOp (s : AppState) (op : Op) (h : Inv s) : Inv (applyOp s op) := by
  cases op with
  | openM =>
      obtain ⟨h1, h2, h3⟩ := h
      exact ⟨h1, h2, h3⟩
  | closeM =>
      obtain ⟨h1, h2, h3⟩ := h
      exact ⟨h1, h2, h3⟩
  | typeIn v =>
      obtain ⟨h1, h2, h3⟩ := h
      exact inv_validateInput { s with inputValue := v } ⟨h1, h2, h3⟩
  | save =>
      show Inv (clickSave s)
      rw [clickSave]
      split
      · exact h
      · exact inv_saveName s h
  | enter => exact inv_saveName s h
  | replay =>
      show Inv (replayAnimation s)
      rw [replayAnimation]
      split
      · exact h
      · obtain ⟨h1, h2, h3⟩ := h
        exact ⟨h1, h2, h3⟩
  | runTo t => exact inv_runTimersTo t s h

theorem inv_run (ops : List Op) (s : AppState) (h : Inv s) : Inv (run ops s) := by
  induction ops generalizing s with
  | nil => exact h
  | cons op rest ih => exact ih (applyOp s op) (inv_applyOp s op h)

theorem inv_initApp (storage0 : Option String) (cake : Bool)
    (h : WellFormedStore storage0) : Inv (initApp storage0 cake) := by
  cases storage0 with
  | none =>
      exact ⟨show ("Lovie" : String) ≠ "" by decide,
        show jsLength "Lovie" ≤ 20 by decide, Or.inl rfl⟩
  | some v =>
      obtain ⟨ht, hne, hlen⟩ := h
      have hcond : v ≠ "" ∧ jsTrim v ≠ "" := ⟨hne, by rw [ht]; exact hne⟩
      unfold initApp
      rw [loadSavedName_some (initState (some v) cake) v rfl, if_pos hcond]
      refine ⟨?_, ?_, Or.inr ?_⟩
      · show jsTrim v ≠ ""
        rw [ht]
        exact hne
      · show jsLength (jsTrim v) ≤ 20
        rw [ht]
        exact hlen
      · show some v = some (jsTrim v)
        rw [ht]

/-- C4 counterexample: `loadSavedName` performs no length check, so starting
up with the 28-character persisted value "A very very long name indeed"
produces a reachable state whose `currentName` has 28 > 20 characters —
refuting the claimed invariant for reachable states in general. -/
theorem reachable_invariant_cex :
    20 < jsLength (run [] (initApp (some "A very very long name indeed") true)).currentName := by
  decide

/-- C4 (amended): provided the persisted value present at startup is one this
app could itself have written — absent, or a trimmed non-empty string of at
most 20 characters — then after startup initialization and any sequence of
operations (opening/closing the dialog, typing, saving by click or Enter,
replaying, timers firing), `currentName` is a non-empty string of at most 20
characters, and whenever a persisted value exists it equals `currentName`
exactly. -/
theorem reachable_invariant (storage0 : Option String) (cake : Bool) (ops : List Op)
    (h : WellFormedStore storage0) :
    Inv (run ops (initApp storage0 cake)) :=
  inv_run ops (initApp storage0 cake) (inv_initApp storage0 cake h)

/-- C4 witness: the amended invariant after starting with the persisted value
"Sam", then opening the dialog, typing "Bob", saving with Enter, and letting
the 150 ms label timer fire. -/
theorem reachable_invariant_witness :
    Inv (run [Op.openM, Op.typeIn "Bob", Op.enter, Op.runTo 200]
      (initApp (some "Sam") true)) := by
  exact reachable_invariant (some "Sam") true
    [Op.openM, Op.typeIn "Bob", Op.enter, Op.runTo 200]
    ⟨by decide, by decide, by decide⟩

/-! ### C7 -/

/-- Whether a pending timer is the animation-cooldown reset. -/
def isAnimEnd (p : Nat × TimerAction) : Bool :=
  decide (p.2 = TimerAction.animationEnd)

/-- The in-cooldown invariant: the flag is set, the trigger control is
disabled, the clock has not reached the deadline `d`, and exactly one
cooldown timer is pending, due at `d`. -/
def AnimInv (d : Nat) (s : AppState) : Prop :=
  s.isAnimating = true ∧ s.playBtnDisabled = true ∧ s.now < d ∧
    s.timers.filter isAnimEnd = [(d, TimerAction.animationEnd)]

/-- An operation that does not advance the clock to the deadline `d` or
beyond. -/
def Bounded (d : Nat) : Op → Prop
  | Op.runTo t => t < d
  | _ => True

theorem applyTimer_ann_mono (st : AppState) (a : TimerAction) (m : String)
    (h : m ∈ st.announcements) : m ∈ (applyTimer st a).announcements := by
  cases a with
  | labelUpdate n => exact h
  | animationEnd => exact List.mem_append_left _ h

theorem fireAll_ann_mono (l : List (Nat × TimerAction)) (st : AppState) (m : String)
    (h : m ∈ st.announcements) : m ∈ (fireAll st l).announcements := by
  induction l generalizing st with
  | nil => exact h
  | cons x xs ih => exact ih (applyTimer st x.2) (applyTimer_ann_mono st x.2 m h)

theorem fireAll_noAnimEnd (l : List (Nat × TimerAction)) (st : AppState)
    (h : l.filter isAnimEnd = []) :
    (fireAll st l).isAnimating = st.isAnimating ∧
    (fireAll st l).playBtnDisabled = st.playBtnDisabled := by
  induction l generalizing st with
  | nil => exact ⟨rfl, rfl⟩
  | cons x xs ih =>
      by_cases hx : isAnimEnd x = true
      · rw [List.filter_cons_of_pos hx] at h
        exact absurd h (List.cons_ne_nil _ _)
      · rw [List.filter_cons_of_neg (by simpa using hx)] at h
        rw [fireAll_cons]
        obtain ⟨i1, i2⟩ := ih (applyTimer st x.2) h
        have ha : (applyTimer st x.2).isAnimating = st.isAnimating ∧
            (applyTimer st x.2).playBtnDisabled = st.playBtnDisabled := by
          cases hp : x.2 with
          | labelUpdate n => exact ⟨rfl, rfl⟩
          | animationEnd => exact absurd (by simp [isAnimEnd, hp]) hx
        exact ⟨i1.trans ha.1, i2.trans ha.2⟩

theorem fireAll_oneAnimEnd (l : List (Nat × TimerAction)) (st : AppState) (d : Nat)
    (h : l.filter isAnimEnd = [(d, TimerAction.animationEnd)]) :
    (fireAll st l).isAnimating = false ∧
    (fireAll st l).playBtnDisabled = false ∧
    "Cake animation completed" ∈ (fireAll st l).announcements := by
  induction l generalizing st with
  | nil => exact absurd h (by simp)
  | cons x xs ih =>
      by_cases hx : isAnimEnd x = true
      · rw [List.filter_cons_of_pos hx] at h
        have hxeq : x = (d, TimerAction.animationEnd) := (List.cons_eq_cons.mp h).1
        have hrest : xs.filter isAnimEnd = [] := (List.cons_eq_cons.mp h).2
        rw [fireAll_cons, hxeq]
        obtain ⟨i1, i2⟩ := fireAll_noAnimEnd xs _ hrest
        refine ⟨i1.trans rfl, i2.trans rfl, ?_⟩
        refine fireAll_ann_mono xs _ _ ?_
        show "Cake animation completed" ∈ st.announcements ++ ["Cake animation completed"]
        exact List.mem_append_right _ (List.mem_singleton_self _)
      · rw [List.filter_cons_of_neg (by simpa using hx)] at h
        rw [fireAll_cons]
        have hann : xs.filter isAnimEnd = [(d, TimerAction.animationEnd)] := h
        exact ih (applyTimer st x.2) hann

theorem animInv_saveName (d : Nat) (s : AppState) (h : AnimInv d s) :
    AnimInv d (saveName s) := by
  obtain ⟨h1, h2, h3, h4⟩ := h
  by_cases c1 : jsTrim s.inputValue = ""
  · rw [saveName, if_pos c1]
    exact ⟨h1, h2, h3, h4⟩
  · by_cases c2 : 20 < jsLength (jsTrim s.inputValue)
    · rw [saveName, if_neg c1, if_pos c2]
      exact ⟨h1, h2, h3, h4⟩
    · rw [saveName, if_neg c1, if_neg c2]
      refine ⟨h1, h2, h3, ?_⟩
      show (s.timers ++
        [(s.now + 150, TimerAction.labelUpdate (jsTrim s.inputValue))]).filter isAnimEnd =
          [(d, TimerAction.animationEnd)]
      rw [List.filter_append, h4]
      simp [isAnimEnd]

theorem animInv_validateInput (d : Nat) (s : AppState) (h : AnimInv d s) :
    AnimInv d (validateInput s) := by
  obtain ⟨h1, h2, h3, h4⟩ := h
  rw [validateInput]
  split
  · exact ⟨h1, h2, h3, h4⟩
  · split
    · exact ⟨h1, h2, h3, h4⟩
    · exact ⟨h1, h2, h3, h4⟩

theorem animInv_runTimersTo (d t : Nat) (s : AppState) (ht : t < d)
    (h : AnimInv d s) : AnimInv d (runTimersTo t s) := by
  obtain ⟨h1, h2, h3, h4⟩ := h
  have hmax : max s.now t < d := max_lt h3 ht
  have hnotdue : (decide (d ≤ max s.now t)) = false :=
    decide_eq_false (Nat.not_le.mpr hmax)
  have hdue : ((s.timers.filter fun p => decide (p.1 ≤ max s.now t)).filter isAnimEnd) = [] := by
    rw [List.filter_comm, h4]
    simp [hnotdue]
    exact ⟨h3, ht⟩
  have hrest : ((s.timers.filter fun p => !decide (p.1 ≤ max s.now t)).filter isAnimEnd) =
      [(d, TimerAction.animationEnd)] := by
    rw [List.filter_comm, h4]
    simp [hnotdue]
    exact ⟨h3, ht⟩
  rw [runTimersTo]
  obtain ⟨i1, i2⟩ := fireAll_noAnimEnd _ _ hdue
  refine ⟨i1.trans h1, i2.trans h2, ?_, ?_⟩
  · rw [(fireAll_fields _ _).2.2.2]
    exact hmax
  · rw [(fireAll_fields _ _).2.2.1]
    exact hrest

theorem animInv_applyOp (d : Nat) (s : AppState) (op : Op) (hb : Bounded d op)
    (h : AnimInv d s) : AnimInv d (applyOp s op) := by
  obtain ⟨h1, h2, h3, h4⟩ := h
  cases op with
  | openM => exact ⟨h1, h2, h3, h4⟩
  | closeM => exact ⟨h1, h2, h3, h4⟩
  | typeIn v => exact animInv_validateInput d { s with inputValue := v } ⟨h1, h2, h3, h4⟩
  | save =>
      show AnimInv d (clickSave s)
      rw [clickSave]
      split
      · exact ⟨h1, h2, h3, h4⟩
      · exact animInv_saveName d s ⟨h1, h2, h3, h4⟩
  | enter => exact animInv_saveName d s ⟨h1, h2, h3, h4⟩
  | replay =>
      show AnimInv d (replayAnimation s)
      rw [replayAnimation, if_pos (by rw [h1, Bool.true_or])]
      exact ⟨h1, h2, h3, h4⟩
  | runTo t => exact animInv_runTimersTo d t s hb ⟨h1, h2, h3, h4⟩

theorem animInv_run (d : Nat) (ops : List Op) (s : AppState)
    (hb : ∀ op ∈ ops, Bounded d op) (h : AnimInv d s) : AnimInv d (run ops s) := by
  induction ops generalizing s with
  | nil => exact h
  | cons op rest ih =>
      exact ih (applyOp s op) (fun o ho => hb o (List.mem_cons_of_mem _ ho))
        (animInv_applyOp d s op (hb op (List.mem_cons_self _ _)) h)

theorem animInv_replay (s : AppState) (h1 : s.isAnimating = false)
    (h2 : s.cakePresent = true) (h3 : s.timers.filter isAnimEnd = []) :
    AnimInv (s.now + 4000) (replayAnimation s) := by
  rw [replayAnimation, if_neg (by rw [h1, h2]; decide)]
  refine ⟨rfl, rfl, ?_, ?_⟩
  · show s.now < s.now + 4000
    omega
  · show (s.timers ++ [(s.now + 4000, TimerAction.animationEnd)]).filter isAnimEnd =
      [(s.now + 4000, TimerAction.animationEnd)]
    rw [List.filter_append, h3]
    simp [isAnimEnd]

theorem animInv_fires (d t : Nat) (s : AppState) (ht : d ≤ t) (h : AnimInv d s) :
    (runTimersTo t s).isAnimating = false ∧
    (runTimersTo t s).playBtnDisabled = false ∧
    "Cake animation completed" ∈ (runTimersTo t s).announcements := by
  obtain ⟨h1, h2, h3, h4⟩ := h
  have hd : (decide (d ≤ max s.now t)) = true :=
    decide_eq_true (le_trans ht (le_max_right _ _))
  have hdue : ((s.timers.filter fun p => decide (p.1 ≤ max s.now t)).filter isAnimEnd) =
      [(d, TimerAction.animationEnd)] := by
    rw [List.filter_comm, h4]
    simp [hd]
    exact Or.inr ht
  rw [runTimersTo]
  exact fireAll_oneAnimEnd _ _ d hdue

/-- C7: after a successful replay from a non-animating state with the cake
element present (and no stale cooldown timer pending, which no reachable
non-animating state has), `isAnimating` is set and the trigger control
disabled; along every continuation whose clock advances stay strictly below
trigger time + 4000 ms, `isAnimating` remains true — no operation (opening,
closing, typing, saving, re-triggering replay, or firing due timers) can
abort the cooldown early; and whenever the event loop processes any time at
or past trigger time + 4000 ms, `isAnimating` is false, the control is
re-enabled, and "Cake animation completed" has been announced. -/
theorem replay_cooldown (s : AppState) (h1 : s.isAnimating = false)
    (h2 : s.cakePresent = true) (h3 : s.timers.filter isAnimEnd = []) :
    (replayAnimation s).isAnimating = true ∧
    (replayAnimation s).playBtnDisabled = true ∧
    (∀ ops, (∀ op ∈ ops, Bounded (s.now + 4000) op) →
        (run ops (replayAnimation s)).isAnimating = true) ∧
    (∀ ops t, (∀ op ∈ ops, Bounded (s.now + 4000) op) → s.now + 4000 ≤ t →
        (runTimersTo t (run ops (replayAnimation s))).isAnimating = false ∧
        (runTimersTo t (run ops (replayAnimation s))).playBtnDisabled = false ∧
        "Cake animation completed" ∈
          (runTimersTo t (run ops (replayAnimation s))).announcements) := by
  have hstart := animInv_replay s h1 h2 h3
  refine ⟨hstart.1, hstart.2.1, ?_, ?_⟩
  · intro ops hb
    exact (animInv_run _ ops _ hb hstart).1
  · intro ops t hb ht
    exact animInv_fires _ t _ ht (animInv_run _ ops _ hb hstart)

/-- C7 witness: replay from the freshly initialized app; after the event loop
reaches 4000 ms the flag is cleared and the control re-enabled. -/
theorem replay_cooldown_witness :
    (runTimersTo 4000 (run [] (replayAnimation (initApp none true)))).isAnimating = false ∧
    (runTimersTo 4000 (run [] (replayAnimation (initApp none true)))).playBtnDisabled = false := by
  have h := replay_cooldown (initApp none true) (by decide) (by decide) (by decide)
  have h2 := h.2.2.2 [] 4000 (by intro op ho; exact absurd ho (List.not_mem_nil op)) (by decide)
  exact ⟨h2.1, h2.2.1⟩

end Dew
